import Mathlib

/-!
Verification of the orchestration-framework core (Agent Gateway).

The repository ships a quickstart notebook exercising the public surface:
tool configuration records, an `Agent` built from a tool list with a
`max_retries` budget, and observed response payloads of the shape
`\x7boutput, sources:[\x7btool_type, tool_name, metadata:[...]\x7d]\x7d`.
The core components (Registry, Planner, Executor, Step History,
Aggregator, Orchestrator loop) are embedded below from the design
specification, and the notebook's concrete configurations and observed
source records are reproduced as concrete inputs.
-/

namespace AgentGateway

/-- Modelled from the spec: one metadata entry of a Source is a key/value
mapping (e.g. document path, table name) or the null marker, matching the
notebook-observed `metadata` entries such as
`\x7bTable: cube_testing.public.sp500\x7d` and `None`. -/
abbrev MetaEntry := Option (List (String × String))

/-- Modelled from the spec: provenance unit with tool category tag, tool
name and an ordered metadata list. -/
structure Source where
  tool_type : String
  tool_name : String
  metadata : List MetaEntry
deriving DecidableEq

/-- Modelled from the spec: uniform capability record produced at
configuration time. The invocation handle is kept external (a `ToolSuite`
function below), since tool bodies are external collaborators. -/
structure ToolDescriptor where
  name : String
  tool_type : String
  description : String
  output_description : String
  arg_schema : List (String × String)
deriving DecidableEq

/-- Modelled from the spec: registry/config-time error taxonomy. -/
inductive RegistryError where
  | duplicateName (n : String)
  | unknownTool (n : String)
deriving DecidableEq

/-- Modelled from the spec: a Registry owns a name-to-descriptor mapping
with stable insertion order. -/
abbrev Registry := List ToolDescriptor

/-- Modelled from the spec: `register(descriptor)` fails with
`DuplicateNameError` when the name already exists and leaves the registry
unchanged; otherwise the descriptor is appended (insertion order kept). -/
def Registry.register (r : Registry) (d : ToolDescriptor) :
    Registry × Option RegistryError :=
  if r.any (fun e => e.name == d.name) then
    (r, some (RegistryError.duplicateName d.name))
  else
    (r ++ [d], none)

/-- Modelled from the spec: `get(name)` fails with `UnknownToolError` when
the name is absent. -/
def Registry.get (r : Registry) (n : String) :
    Except RegistryError ToolDescriptor :=
  match r.find? (fun e => e.name == n) with
  | some d => Except.ok d
  | none => Except.error (RegistryError.unknownTool n)

/-- Argument bindings of a plan step. -/
abbrev Args := List (String × String)

/-- Modelled from the spec: one planner decision with target tool name,
argument bindings, rationale and sequence index. -/
structure PlanStep where
  tool : String
  args : Args
  rationale : String
  idx : Nat
deriving DecidableEq

/-- Modelled from the spec: the Planner returns a concrete step, a finish
signal, or a clarification request carrying one or more rephrased
candidate questions (a first candidate plus possibly more). -/
inductive PlannerDecision where
  | step (tool : String) (args : Args) (rationale : String)
  | finish
  | clarify (c : String) (cs : List String)

/-- Modelled from the spec: per-step outcome status. -/
inductive StepStatus where
  | success
  | tool_error
  | timeout
  | invalid_output
deriving DecidableEq

/-- Modelled from the spec: outcome of executing a PlanStep, never mutated
after creation. -/
structure StepResult where
  status : StepStatus
  payload : String
  sources : List Source
  attempts : Nat
deriving DecidableEq

/-- Modelled from the spec: append-only ordered record of (PlanStep,
StepResult) pairs for one query's lifetime. -/
abbrev StepHistory := List (PlanStep × StepResult)

/-- Modelled from the spec: the Planner maps (query, StepHistory so far,
Registry) to its next decision; the language-model call behind it is a
pure function at the PLANNING state. -/
abbrev Planner := String → StepHistory → Registry → PlannerDecision

/-- Modelled from the spec: raw outcome of one attempt at the external
tool invocation interface `invoke(arguments) -> (payload, metadata_list |
null) | raises ToolError`; transient failures (network, timeout,
tool-internal error) are retried, non-transient ones are not. -/
inductive RawOutcome where
  | success (payload : String) (metadata : Option (List MetaEntry))
  | transient
  | fatal

/-- Behaviour of one tool call: the raw outcome of each attempt index. -/
abbrev ToolBehavior := Nat → RawOutcome

/-- External tool implementations keyed by tool name and arguments. -/
abbrev ToolSuite := String → Args → ToolBehavior

/-- Modelled from the spec: a tool producing no citable metadata (a null
metadata list) yields a Source with the null metadata marker, never an
absent Source. -/
def normalizeMeta (m : Option (List MetaEntry)) : List MetaEntry :=
  match m with
  | some ms => ms
  | none => [none]

/-- Modelled from the spec: the single Source attached to a successful
step, derived from the tool's declared tool type and result metadata. -/
def mkSource (d : ToolDescriptor) (m : Option (List MetaEntry)) : Source :=
  { tool_type := d.tool_type, tool_name := d.name, metadata := normalizeMeta m }

/-- Modelled from the spec: the Executor's retry loop; `fuel` is the
remaining attempt budget, `att` counts attempts made so far. Exhaustion
reports a timeout, a fatal raw outcome reports `invalid_output` at once,
and a successful attempt is normalized into a one-Source result. -/
def executeAttempts (d : ToolDescriptor) (behave : ToolBehavior) :
    Nat → Nat → StepResult
  | 0, att => { status := StepStatus.timeout, payload := "", sources := [], attempts := att }
  | fuel + 1, att =>
    match behave att with
    | RawOutcome.success p m =>
        { status := StepStatus.success, payload := p,
          sources := [mkSource d m], attempts := att + 1 }
    | RawOutcome.transient => executeAttempts d behave fuel (att + 1)
    | RawOutcome.fatal =>
        { status := StepStatus.invalid_output, payload := "",
          sources := [], attempts := att + 1 }

/-- Modelled from the spec: `execute(step, descriptor) -> StepResult` with
a configured maximum attempt budget. -/
def execute (d : ToolDescriptor) (behave : ToolBehavior) (maxAttempts : Nat) :
    StepResult :=
  executeAttempts d behave maxAttempts 0

/-- Success test on a step result. -/
def StepResult.isSuccess (r : StepResult) : Bool :=
  match r.status with
  | StepStatus.success => true
  | _ => false

/-- Results of the successful steps of a history, in step order. -/
def successResults (h : StepHistory) : List StepResult :=
  (h.map Prod.snd).filter (fun r => r.isSuccess)

/-- Payloads of the successful steps of a history, in step order. -/
def successPayloads (h : StepHistory) : List String :=
  (successResults h).map (fun r => r.payload)

/-- Concatenation of the Source lists of the successful steps, in step
order. -/
def successSources (h : StepHistory) : List Source :=
  ((successResults h).map (fun r => r.sources)).flatten

/-- Whether at least one step of the history succeeded. -/
def hasSuccess (h : StepHistory) : Bool :=
  h.any (fun p => p.2.isSuccess)

/-- Modelled from the spec: one left-to-right pass of the stable
deduplication, keeping a source only when it has not been seen yet. -/
def dedupStep (acc : List Source) (s : Source) : List Source :=
  if s ∈ acc then acc else acc ++ [s]

/-- Modelled from the spec: exact-duplicate removal by (tool_type,
tool_name, metadata) tuple preserving first-seen order (stable dedup, not
sort). -/
def dedupSources (l : List Source) : List Source :=
  l.foldl dedupStep []

/-- Modelled from the spec: final answer shape, output text plus an
ordered merged Source list. -/
structure FinalAnswer where
  output : String
  sources : List Source
deriving DecidableEq

/-- Modelled from the spec: the external language-model synthesis
capability, a pure function from the query and the ordered successful
payloads to the final text. -/
abbrev Synthesizer := String → List String → String

/-- Modelled from the spec: `synthesize(query, history)` combines the
successful payloads into final text and builds the deduplicated ordered
Source list. -/
def synthesize (synth : Synthesizer) (q : String) (h : StepHistory) : FinalAnswer :=
  { output := synth q (successPayloads h),
    sources := dedupSources (successSources h) }

/-- Modelled from the spec: reasons for the terminal FAILED state. -/
inductive FailReason where
  | invalidPlan (tool : String)
  | stuckLoop
  | budgetExhausted
  | noSuccessfulSteps
deriving DecidableEq

/-- Modelled from the spec: terminal failure record, carrying a
best-effort answer synthesized from the steps that succeeded before the
failure, when at least one step succeeded. -/
structure TerminalFailure where
  reason : FailReason
  bestEffort : Option FinalAnswer
deriving DecidableEq

/-- Terminal outcome of one QueryExecution. -/
inductive Outcome where
  | answer (a : FinalAnswer)
  | failure (f : TerminalFailure)
  | clarification (cands : List String)
deriving DecidableEq

/-- Best-effort synthesis over a history: some answer when at least one
step succeeded, none otherwise (synthesis is not attempted). -/
def bestEffortAnswer (synth : Synthesizer) (q : String) (h : StepHistory) :
    Option FinalAnswer :=
  if hasSuccess h then some (synthesize synth q h) else none

/-- Failure outcome over a history, keeping whatever could be synthesized
from successful steps. -/
def failWith (synth : Synthesizer) (q : String) (r : FailReason)
    (h : StepHistory) : Outcome :=
  Outcome.failure { reason := r, bestEffort := bestEffortAnswer synth q h }

/-- The (tool name, argument set) pairs proposed so far in a history. -/
def pairs (h : StepHistory) : List (String × Args) :=
  h.map (fun p => (p.1.tool, p.1.args))

/-- Modelled from the spec: the Orchestrator's bounded loop. At each
iteration the Planner is consulted: a ClarificationRequest ends the query
in CLARIFICATION_NEEDED at once; a FinishSignal hands over to the
Aggregator when at least one step succeeded and fails otherwise; a
repeated (tool, args) pair ends the query as a stuck loop without
executing the repeated step; an unregistered tool name is an invalid
plan; otherwise the step is executed and appended to the history. Fuel
exhaustion is the exhausted global attempt budget. -/
def loop (planner : Planner) (tools : ToolSuite) (synth : Synthesizer)
    (reg : Registry) (q : String) (tf : Nat) :
    Nat → StepHistory → Outcome × StepHistory
  | 0, h => (failWith synth q FailReason.budgetExhausted h, h)
  | fuel + 1, h =>
    match planner q h reg with
    | PlannerDecision.clarify c cs => (Outcome.clarification (c :: cs), h)
    | PlannerDecision.finish =>
      match bestEffortAnswer synth q h with
      | some a => (Outcome.answer a, h)
      | none => (failWith synth q FailReason.noSuccessfulSteps h, h)
    | PlannerDecision.step t args rat =>
      if (t, args) ∈ pairs h then
        (failWith synth q FailReason.stuckLoop h, h)
      else
        match Registry.get reg t with
        | Except.error _ => (failWith synth q (FailReason.invalidPlan t) h, h)
        | Except.ok d =>
          loop planner tools synth reg q tf fuel
            (h ++ [({ tool := t, args := args, rationale := rat, idx := h.length },
                    execute d (tools t args) tf)])

/-- Modelled from the spec: public entry point options,
`\x7bmax_attempts: int, tool_timeout: duration\x7d`; the per-call
duration is abstracted as the Executor's attempt budget. -/
structure RunOptions where
  max_attempts : Nat
  tool_timeout : Nat
deriving DecidableEq

/-- One full QueryExecution: terminal outcome together with the final
StepHistory it produced. -/
def runFull (planner : Planner) (tools : ToolSuite) (synth : Synthesizer)
    (reg : Registry) (q : String) (opts : RunOptions) :
    Outcome × StepHistory :=
  loop planner tools synth reg q opts.tool_timeout opts.max_attempts []

/-- Modelled from the spec: public entry point
`run(query, options) -> FinalAnswer or terminal error/clarification`. -/
def run (planner : Planner) (tools : ToolSuite) (synth : Synthesizer)
    (reg : Registry) (q : String) (opts : RunOptions) : Outcome :=
  (runFull planner tools synth reg q opts).1

/-- Configuration record of a Cortex Search tool, as in the quickstart
notebook (the connection object is an external collaborator and is not
embedded). -/
structure CortexSearchConfig where
  service_name : String
  service_topic : String
  data_description : String
  retrieval_columns : List String
  k : Nat

/-- Configuration record of a Cortex Analyst tool, as in the quickstart
notebook (the connection object is an external collaborator and is not
embedded). -/
structure CortexAnalystConfig where
  semantic_model : String
  stage : String
  service_topic : String
  data_description : String
  max_results : Nat

/-- Configuration record of a Python tool, as in the quickstart notebook:
only a tool description, an output description and a callable; the
callable is embedded by its defined name (`__name__`), the only part of
it the naming scheme consumes. -/
structure PythonToolConfig where
  tool_description : String
  output_description : String
  python_func : String

/-- The notebook's `search_config` literal. -/
def search_config : CortexSearchConfig :=
  { service_name := "SEC_SEARCH_SERVICE",
    service_topic := "Snowflake\x27s business,product offerings,and performance.",
    data_description := "Snowflake annual reports",
    retrieval_columns := ["CHUNK", "RELATIVE_PATH"],
    k := 10 }

/-- The notebook's `analyst_config` literal. -/
def analyst_config : CortexAnalystConfig :=
  { semantic_model := "sp500_semantic_model.yaml",
    stage := "ANALYST",
    service_topic := "S&P500 company and stock metrics",
    data_description := "a table with stock and financial metrics about S&P500 companies ",
    max_results := 5 }

/-- The notebook's `python_crawler_config` literal, with the callable
`html_crawl` embedded by its name. -/
def python_crawler_config : PythonToolConfig :=
  { tool_description := "reads the html from a given URL or website",
    output_description := "html of a webpage",
    python_func := "html_crawl" }

/-- Lower-cases a string character by character. -/
def lowerName (s : String) : String :=
  String.mk (s.data.map Char.toLower)

/-- Base name of a file name: the characters before the first dot. -/
def baseName (f : String) : String :=
  String.mk (f.data.takeWhile (fun ch => !(ch == '.')))

/-- Modelled from the spec: the CortexSearchTool registers under the
lowercased service name with the suffix `_cortexsearch`, matching the
notebook-observed task log and source names. -/
def cortexSearchToolName (c : CortexSearchConfig) : String :=
  lowerName c.service_name ++ "_cortexsearch"

/-- Modelled from the spec: the CortexAnalystTool registers under the
semantic-model base name with the suffix `_cortexanalyst`, matching the
notebook-observed task log and source names. -/
def cortexAnalystToolName (c : CortexAnalystConfig) : String :=
  baseName c.semantic_model ++ "_cortexanalyst"

/-- Modelled from the spec: the PythonTool registers under the defined
name of the supplied callable. -/
def pythonToolName (c : PythonToolConfig) : String :=
  c.python_func

/-- Descriptor resolved from a Cortex Search configuration. -/
def cortexSearchDescriptor (c : CortexSearchConfig) : ToolDescriptor :=
  { name := cortexSearchToolName c,
    tool_type := "cortex_search",
    description := c.service_topic,
    output_description := c.data_description,
    arg_schema := [("query", "string")] }

/-- Descriptor resolved from a Cortex Analyst configuration. -/
def cortexAnalystDescriptor (c : CortexAnalystConfig) : ToolDescriptor :=
  { name := cortexAnalystToolName c,
    tool_type := "cortex_analyst",
    description := c.service_topic,
    output_description := c.data_description,
    arg_schema := [("query", "string")] }

/-- Descriptor resolved from a Python tool configuration. -/
def pythonToolDescriptor (c : PythonToolConfig) : ToolDescriptor :=
  { name := pythonToolName c,
    tool_type := "custom_tool",
    description := c.tool_description,
    output_description := c.output_description,
    arg_schema := [("query", "string")] }

/-- Source record observed in the notebook for the Cortex Analyst tool. -/
def observed_analyst_source : Source :=
  { tool_type := "cortex_analyst",
    tool_name := "sp500_semantic_model_cortexanalyst",
    metadata := [some [("Table", "cube_testing.public.sp500")]] }

/-- Source record observed in the notebook for the Cortex Search tool. -/
def observed_search_source : Source :=
  { tool_type := "cortex_search",
    tool_name := "sec_search_service_cortexsearch",
    metadata := [some [("RELATIVE_PATH", "2024_10k_snowflake.pdf")],
                 some [("RELATIVE_PATH", "2023_10k_snowflake.pdf")],
                 some [("RELATIVE_PATH", "2022_10k_snowflake.pdf")],
                 some [("RELATIVE_PATH", "2021_10k_snowflake.pdf")]] }

/-- Source record observed in the notebook for the Python tool. -/
def observed_python_source : Source :=
  { tool_type := "custom_tool",
    tool_name := "html_crawl",
    metadata := [none] }

/-- Concrete descriptor used by the closed-instance theorems. -/
def wDesc : ToolDescriptor :=
  { name := "t", tool_type := "custom_tool", description := "d",
    output_description := "o", arg_schema := [] }

/-- Concrete tool suite that always succeeds with no citable metadata. -/
def wTools : ToolSuite := fun _ _ _ => RawOutcome.success "p" none

/-- Concrete synthesizer returning a fixed text. -/
def wSynth : Synthesizer := fun _ _ => "out"

/-- Concrete registry holding the single descriptor `wDesc`. -/
def wReg : Registry := [wDesc]

/-- Concrete tool behaviour that succeeds on the first attempt. -/
def wBehave : ToolBehavior := fun _ => RawOutcome.success "p" none

/-- Concrete planner that always proposes a fresh argument set, so a run
exhausts its budget. -/
def wPlanner4 : Planner := fun _ h _ =>
  PlannerDecision.step "t" [(Nat.repr h.length, "x")] "r"

/-- Concrete planner that always proposes the same (tool, args) pair. -/
def wPlanner2 : Planner := fun _ _ _ => PlannerDecision.step "t" [] "r"

/-- Concrete planner that hands back a clarification with the two
candidate rephrasings observed in the notebook log. -/
def wPlanner3 : Planner := fun _ _ _ =>
  PlannerDecision.clarify
    "What is the market cap of Amazon.com, Inc., Microsoft Corporation, and Alphabet Inc.?"
    ["What is the market cap of the companies that own Amazon Web Services (AWS), Microsoft Azure, and Google Cloud Platform (GCP)?"]

/-- Concrete planner that finishes at once, with no successful step. -/
def wPlanner7 : Planner := fun _ _ _ => PlannerDecision.finish

/-- Concrete one-step history whose (tool, args) pair is ("t", []). -/
def wHist : StepHistory :=
  [({ tool := "t", args := [], rationale := "r", idx := 0 },
    { status := StepStatus.success, payload := "p", sources := [], attempts := 1 })]

/-- Concrete registry descriptors for the registry contract theorem. -/
def dR1 : ToolDescriptor :=
  { name := "alpha", tool_type := "cortex_search", description := "d1",
    output_description := "o1", arg_schema := [] }

/-- Second concrete registry descriptor, with a fresh name. -/
def dR2 : ToolDescriptor :=
  { name := "beta", tool_type := "cortex_analyst", description := "d2",
    output_description := "o2", arg_schema := [] }

/-- Each pass of the stable dedup keeps the accumulator duplicate-free. -/
theorem dedup_foldl_nodup (l : List Source) :
    ∀ acc : List Source, acc.Nodup → (l.foldl dedupStep acc).Nodup := by
  induction l with
  | nil => intro acc h; simpa using h
  | cons s rest ih =>
    intro acc hacc
    by_cases hs : s ∈ acc
    · simpa [List.foldl, dedupStep, hs] using ih acc hacc
    · have hnd : (acc ++ [s]).Nodup := by
        refine List.Nodup.append hacc (List.nodup_singleton s) ?_
        intro x hx hy
        rcases List.mem_singleton.mp hy with rfl
        exact hs hx
      simpa [List.foldl, dedupStep, hs] using ih (acc ++ [s]) hnd

/-- The stable dedup only appends, and the appended part is a sublist of
the input, so relative order is preserved. -/
theorem dedup_foldl_shape (l : List Source) :
    ∀ acc : List Source, ∃ r, l.foldl dedupStep acc = acc ++ r ∧ r.Sublist l := by
  induction l with
  | nil => intro acc; exact ⟨[], by simp, List.nil_sublist _⟩
  | cons s rest ih =>
    intro acc
    by_cases hs : s ∈ acc
    · obtain ⟨r, h1, h2⟩ := ih acc
      exact ⟨r, by simpa [List.foldl, dedupStep, hs] using h1, h2.cons s⟩
    · obtain ⟨r, h1, h2⟩ := ih (acc ++ [s])
      refine ⟨s :: r, ?_, h2.cons₂ s⟩
      simp [List.foldl, dedupStep, hs, h1]

/-- The stable dedup drops no element and invents none. -/
theorem dedup_foldl_mem (l : List Source) :
    ∀ (acc : List Source) (x : Source),
      x ∈ l.foldl dedupStep acc ↔ x ∈ acc ∨ x ∈ l := by
  induction l with
  | nil => intro acc x; simp
  | cons s rest ih =>
    intro acc x
    by_cases hs : s ∈ acc
    · have h0 : (s :: rest).foldl dedupStep acc = rest.foldl dedupStep acc := by
        simp [List.foldl, dedupStep, hs]
      rw [h0, ih acc x]
      constructor
      · rintro (h | h)
        · exact Or.inl h
        · exact Or.inr (List.mem_cons_of_mem s h)
      · rintro (h | h)
        · exact Or.inl h
        · rcases List.mem_cons.mp h with rfl | h2
          · exact Or.inl hs
          · exact Or.inr h2
    · have h0 : (s :: rest).foldl dedupStep acc = rest.foldl dedupStep (acc ++ [s]) := by
        simp [List.foldl, dedupStep, hs]
      rw [h0, ih (acc ++ [s]) x]
      simp [List.mem_append, List.mem_cons]
      tauto

/-- Name search fails on a registry holding no descriptor of that name. -/
theorem find?_name_none (r : Registry) (n : String)
    (h : ∀ e ∈ r, e.name ≠ n) :
    r.find? (fun e => e.name == n) = none := by
  apply List.find?_eq_none.mpr
  intro e he
  simpa using h e he

/-- Name search on a registry extended with a fresh name finds exactly the
new descriptor. -/
theorem find?_append_fresh (r : Registry) (d : ToolDescriptor)
    (h : ∀ e ∈ r, e.name ≠ d.name) :
    (r ++ [d]).find? (fun e => e.name == d.name) = some d := by
  induction r with
  | nil => simp
  | cons e rest ih =>
    have he : e.name ≠ d.name := h e (List.mem_cons_self e rest)
    have h0 : ((e :: rest) ++ [d]).find? (fun x => x.name == d.name)
        = (rest ++ [d]).find? (fun x => x.name == d.name) := by
      rw [List.cons_append, List.find?_cons_of_neg]
      simpa using he
    rw [h0]
    exact ih (fun x hx => h x (List.mem_cons_of_mem e hx))

/-- Name scan is false on a registry holding no descriptor of that name. -/
theorem any_name_false (r : Registry) (nm : String)
    (h : ∀ e ∈ r, e.name ≠ nm) :
    r.any (fun e => e.name == nm) = false := by
  rw [List.any_eq_false]
  intro e he
  simpa using h e he

/-- Name scan is true when some descriptor carries that name. -/
theorem any_name_true (r : Registry) (nm : String)
    (h : ∃ e ∈ r, e.name = nm) :
    r.any (fun e => e.name == nm) = true := by
  rw [List.any_eq_true]
  obtain ⟨e, he, hn⟩ := h
  exact ⟨e, he, by simpa using hn⟩

/-- The loop executes at most `fuel` steps, and a run whose history grew
by exactly `fuel` steps ended with the exhausted-budget failure. -/
theorem loop_budget (planner : Planner) (tools : ToolSuite) (synth : Synthesizer)
    (reg : Registry) (q : String) (tf : Nat) :
    ∀ (fuel : Nat) (h : StepHistory),
      (loop planner tools synth reg q tf fuel h).2.length ≤ h.length + fuel ∧
      ((loop planner tools synth reg q tf fuel h).2.length = h.length + fuel →
        (loop planner tools synth reg q tf fuel h).1 =
          failWith synth q FailReason.budgetExhausted
            (loop planner tools synth reg q tf fuel h).2) := by
  intro fuel
  induction fuel with
  | zero =>
    intro h
    exact ⟨by simp [loop], fun _ => by simp [loop]⟩
  | succ n ih =>
    intro h
    cases hp : planner q h reg with
    | clarify c cs =>
      refine ⟨by simp [loop, hp], fun heq => ?_⟩
      exfalso
      simp [loop, hp] at heq
    | finish =>
      cases hb : bestEffortAnswer synth q h with
      | some a =>
        refine ⟨by simp [loop, hp, hb], fun heq => ?_⟩
        exfalso
        simp [loop, hp, hb] at heq
      | none =>
        refine ⟨by simp [loop, hp, hb], fun heq => ?_⟩
        exfalso
        simp [loop, hp, hb] at heq
    | step t args rat =>
      by_cases hmem : (t, args) ∈ pairs h
      · refine ⟨by simp [loop, hp, hmem], fun heq => ?_⟩
        exfalso
        simp [loop, hp, hmem] at heq
      · cases hg : Registry.get reg t with
        | error e =>
          refine ⟨by simp [loop, hp, hmem, hg], fun heq => ?_⟩
          exfalso
          simp [loop, hp, hmem, hg] at heq
        | ok d =>
          have hunfold : loop planner tools synth reg q tf (n + 1) h
              = loop planner tools synth reg q tf n
                  (h ++ [({ tool := t, args := args, rationale := rat, idx := h.length },
                          execute d (tools t args) tf)]) := by
            simp [loop, hp, hmem, hg]
          have hstep := ih
            (h ++ [({ tool := t, args := args, rationale := rat, idx := h.length },
                    execute d (tools t args) tf)])
          constructor
          · rw [hunfold]
            have hl := hstep.1
            simp only [List.length_append, List.length_cons, List.length_nil] at hl
            omega
          · intro heq
            rw [hunfold] at heq ⊢
            apply hstep.2
            simp only [List.length_append, List.length_cons, List.length_nil] at heq ⊢
            omega

/-- An answer outcome can only arise from the finishing transition: the
final history then has a successful step, and the answer is exactly the
Aggregator's synthesis over that history. -/
theorem loop_answer (planner : Planner) (tools : ToolSuite) (synth : Synthesizer)
    (reg : Registry) (q : String) (tf : Nat) :
    ∀ (fuel : Nat) (h : StepHistory) (a : FinalAnswer),
      (loop planner tools synth reg q tf fuel h).1 = Outcome.answer a →
      hasSuccess (loop planner tools synth reg q tf fuel h).2 = true ∧
      a = synthesize synth q (loop planner tools synth reg q tf fuel h).2 := by
  intro fuel
  induction fuel with
  | zero =>
    intro h a ha
    simp [loop, failWith] at ha
  | succ n ih =>
    intro h a ha
    cases hp : planner q h reg with
    | clarify c cs =>
      exfalso
      simp [loop, hp] at ha
    | finish =>
      cases hb : bestEffortAnswer synth q h with
      | some a0 =>
        have ha0 : a0 = a := by simpa [loop, hp, hb] using ha
        have hcond : hasSuccess h = true ∧ a0 = synthesize synth q h := by
          rw [bestEffortAnswer] at hb
          split at hb
          · exact ⟨by assumption, by injection hb with hb2; exact hb2.symm⟩
          · cases hb
        refine ⟨?_, ?_⟩
        · simpa [loop, hp, hb] using hcond.1
        · rw [show (loop planner tools synth reg q tf (n + 1) h).2 = h from by
            simp [loop, hp, hb]]
          rw [← ha0]
          exact hcond.2
      | none =>
        exfalso
        simp [loop, hp, hb, failWith] at ha
    | step t args rat =>
      by_cases hmem : (t, args) ∈ pairs h
      · exfalso
        simp [loop, hp, hmem, failWith] at ha
      · cases hg : Registry.get reg t with
        | error e =>
          exfalso
          simp [loop, hp, hmem, hg, failWith] at ha
        | ok d =>
          have hunfold : loop planner tools synth reg q tf (n + 1) h
              = loop planner tools synth reg q tf n
                  (h ++ [({ tool := t, args := args, rationale := rat, idx := h.length },
                          execute d (tools t args) tf)]) := by
            simp [loop, hp, hmem, hg]
          rw [hunfold] at ha ⊢
          exact ih _ a ha

/-- A failure outcome always carries the best-effort answer over the final
history: some synthesis when a step succeeded, none otherwise. -/
theorem loop_bestEffort (planner : Planner) (tools : ToolSuite) (synth : Synthesizer)
    (reg : Registry) (q : String) (tf : Nat) :
    ∀ (fuel : Nat) (h : StepHistory) (f : TerminalFailure),
      (loop planner tools synth reg q tf fuel h).1 = Outcome.failure f →
      f.bestEffort = bestEffortAnswer synth q (loop planner tools synth reg q tf fuel h).2 := by
  intro fuel
  induction fuel with
  | zero =>
    intro h f hf
    have : ({ reason := FailReason.budgetExhausted,
              bestEffort := bestEffortAnswer synth q h } : TerminalFailure) = f := by
      simpa [loop, failWith] using hf
    rw [← this]
    simp [loop]
  | succ n ih =>
    intro h f hf
    cases hp : planner q h reg with
    | clarify c cs =>
      exfalso
      simp [loop, hp] at hf
    | finish =>
      cases hb : bestEffortAnswer synth q h with
      | some a0 =>
        exfalso
        simp [loop, hp, hb] at hf
      | none =>
        have : ({ reason := FailReason.noSuccessfulSteps,
                  bestEffort := bestEffortAnswer synth q h } : TerminalFailure) = f := by
          simpa [loop, hp, hb, failWith] using hf
        rw [← this]
        simp [loop, hp, hb]
    | step t args rat =>
      by_cases hmem : (t, args) ∈ pairs h
      · have : ({ reason := FailReason.stuckLoop,
                  bestEffort := bestEffortAnswer synth q h } : TerminalFailure) = f := by
          simpa [loop, hp, hmem, failWith] using hf
        rw [← this]
        simp [loop, hp, hmem]
      · cases hg : Registry.get reg t with
        | error e =>
          have : ({ reason := FailReason.invalidPlan t,
                    bestEffort := bestEffortAnswer synth q h } : TerminalFailure) = f := by
            simpa [loop, hp, hmem, hg, failWith] using hf
          rw [← this]
          simp [loop, hp, hmem, hg]
        | ok d =>
          have hunfold : loop planner tools synth reg q tf (n + 1) h
              = loop planner tools synth reg q tf n
                  (h ++ [({ tool := t, args := args, rationale := rat, idx := h.length },
                          execute d (tools t args) tf)]) := by
            simp [loop, hp, hmem, hg]
          rw [hunfold] at hf ⊢
          exact ih _ f hf

/-- A clarification outcome always carries at least one candidate. -/
theorem loop_clar_ne (planner : Planner) (tools : ToolSuite) (synth : Synthesizer)
    (reg : Registry) (q : String) (tf : Nat) :
    ∀ (fuel : Nat) (h : StepHistory) (cands : List String),
      (loop planner tools synth reg q tf fuel h).1 = Outcome.clarification cands →
      cands ≠ [] := by
  intro fuel
  induction fuel with
  | zero =>
    intro h cands hc
    simp [loop, failWith] at hc
  | succ n ih =>
    intro h cands hc
    cases hp : planner q h reg with
    | clarify c cs =>
      have : c :: cs = cands := by simpa [loop, hp] using hc
      rw [← this]
      simp
    | finish =>
      cases hb : bestEffortAnswer synth q h with
      | some a0 => exfalso; simp [loop, hp, hb] at hc
      | none => exfalso; simp [loop, hp, hb, failWith] at hc
    | step t args rat =>
      by_cases hmem : (t, args) ∈ pairs h
      · exfalso
        simp [loop, hp, hmem, failWith] at hc
      · cases hg : Registry.get reg t with
        | error e =>
          exfalso
          simp [loop, hp, hmem, hg, failWith] at hc
        | ok d =>
          have hunfold : loop planner tools synth reg q tf (n + 1) h
              = loop planner tools synth reg q tf n
                  (h ++ [({ tool := t, args := args, rationale := rat, idx := h.length },
                          execute d (tools t args) tf)]) := by
            simp [loop, hp, hmem, hg]
          rw [hunfold] at hc
          exact ih _ cands hc

/-- The loop preserves distinctness of the proposed (tool, args) pairs:
a step is only executed when its pair is new. -/
theorem loop_nodup (planner : Planner) (tools : ToolSuite) (synth : Synthesizer)
    (reg : Registry) (q : String) (tf : Nat) :
    ∀ (fuel : Nat) (h : StepHistory),
      (pairs h).Nodup → (pairs (loop planner tools synth reg q tf fuel h).2).Nodup := by
  intro fuel
  induction fuel with
  | zero =>
    intro h hnd
    simpa [loop] using hnd
  | succ n ih =>
    intro h hnd
    cases hp : planner q h reg with
    | clarify c cs => simpa [loop, hp] using hnd
    | finish =>
      cases hb : bestEffortAnswer synth q h with
      | some a0 => simpa [loop, hp, hb] using hnd
      | none => simpa [loop, hp, hb] using hnd
    | step t args rat =>
      by_cases hmem : (t, args) ∈ pairs h
      · simpa [loop, hp, hmem] using hnd
      · cases hg : Registry.get reg t with
        | error e => simpa [loop, hp, hmem, hg] using hnd
        | ok d =>
          have hunfold : loop planner tools synth reg q tf (n + 1) h
              = loop planner tools synth reg q tf n
                  (h ++ [({ tool := t, args := args, rationale := rat, idx := h.length },
                          execute d (tools t args) tf)]) := by
            simp [loop, hp, hmem, hg]
          rw [hunfold]
          apply ih
          have hpairs : pairs
              (h ++ [({ tool := t, args := args, rationale := rat, idx := h.length },
                      execute d (tools t args) tf)]) = pairs h ++ [(t, args)] := by
            simp [pairs]
          rw [hpairs]
          refine List.Nodup.append hnd (List.nodup_singleton _) ?_
          intro x hx hy
          rcases List.mem_singleton.mp hy with rfl
          exact hmem hx

/-- A successful Executor result always carries exactly one normalized
Source. -/
theorem executeAttempts_success (d : ToolDescriptor) (behave : ToolBehavior) :
    ∀ (fuel att : Nat),
      (executeAttempts d behave fuel att).status = StepStatus.success →
      ∃ m, (executeAttempts d behave fuel att).sources = [mkSource d m] := by
  intro fuel
  induction fuel with
  | zero =>
    intro att hs
    simp [executeAttempts] at hs
  | succ n ih =>
    intro att hs
    cases hb : behave att with
    | success p m =>
      exact ⟨m, by simp [executeAttempts, hb]⟩
    | transient =>
      simp only [executeAttempts, hb] at hs ⊢
      exact ih (att + 1) hs
    | fatal =>
      exfalso
      simp [executeAttempts, hb] at hs

/-- C1: for every query accepted at the public entry point, the returned
value on success is a FinalAnswer record with exactly its two components,
an output text and an ordered Source list produced by the Aggregator over
the run's final history (each Source being a record of tool type, tool
name and a metadata list by construction); otherwise a terminal failure
or a non-empty clarification payload is returned. -/
theorem C1_entry_point_shape (planner : Planner) (tools : ToolSuite)
    (synth : Synthesizer) (reg : Registry) (q : String) (opts : RunOptions) :
    (∃ a : FinalAnswer, run planner tools synth reg q opts = Outcome.answer a ∧
        a = synthesize synth q (runFull planner tools synth reg q opts).2) ∨
    (∃ f : TerminalFailure,
        run planner tools synth reg q opts = Outcome.failure f) ∨
    (∃ cands : List String,
        run planner tools synth reg q opts = Outcome.clarification cands ∧
        cands ≠ []) := by
  cases hr : run planner tools synth reg q opts with
  | answer a =>
    refine Or.inl ⟨a, rfl, ?_⟩
    exact (loop_answer planner tools synth reg q
      opts.tool_timeout opts.max_attempts [] a hr).2
  | failure f => exact Or.inr (Or.inl ⟨f, rfl⟩)
  | clarification cands =>
    refine Or.inr (Or.inr ⟨cands, rfl, ?_⟩)
    exact loop_clar_ne planner tools synth reg q
      opts.tool_timeout opts.max_attempts [] cands hr

/-- C2: within one QueryExecution all recorded (tool, args) pairs are
pairwise distinct, and a Planner proposal repeating an earlier pair makes
the Orchestrator terminate the query as a stuck-loop failure with the
history unchanged, instead of executing the repeated step. -/
theorem C2_no_repeated_pairs (planner : Planner) (tools : ToolSuite)
    (synth : Synthesizer) (reg : Registry) (q : String) (opts : RunOptions) :
    (pairs (runFull planner tools synth reg q opts).2).Nodup ∧
    (∀ (h : StepHistory) (fuel : Nat) (t : String) (args : Args) (rat : String),
      planner q h reg = PlannerDecision.step t args rat →
      (t, args) ∈ pairs h →
      loop planner tools synth reg q opts.tool_timeout (fuel + 1) h =
        (Outcome.failure
          { reason := FailReason.stuckLoop,
            bestEffort := bestEffortAnswer synth q h }, h)) := by
  constructor
  · exact loop_nodup planner tools synth reg q
      opts.tool_timeout opts.max_attempts [] (by simp [pairs])
  · intro h fuel t args rat hp hmem
    simp [loop, hp, hmem, failWith]

/-- Witness for C2: a planner that repeats the pair ("t", []) is stopped
as a stuck loop on a history already holding that pair, and a full run
under it leaves a duplicate-free pair list. -/
theorem C2_no_repeated_pairs_witness :
    (pairs (runFull wPlanner2 wTools wSynth wReg "q" ⟨3, 1⟩).2).Nodup ∧
    loop wPlanner2 wTools wSynth wReg "q" 1 (0 + 1) wHist =
      (Outcome.failure
        { reason := FailReason.stuckLoop,
          bestEffort := bestEffortAnswer wSynth "q" wHist }, wHist) :=
  ⟨(C2_no_repeated_pairs wPlanner2 wTools wSynth wReg "q" ⟨3, 1⟩).1,
   (C2_no_repeated_pairs wPlanner2 wTools wSynth wReg "q" ⟨3, 1⟩).2
     wHist 0 "t" [] "r" rfl (by decide)⟩

/-- C3: when the Planner returns a ClarificationRequest the query ends at
once in the CLARIFICATION_NEEDED outcome carrying at least one candidate
rephrasing, with the history unchanged (no further plan step is executed)
and with neither an answer nor a failure outcome, so the Aggregator is
never invoked. -/
theorem C3_clarification_terminal (planner : Planner) (tools : ToolSuite)
    (synth : Synthesizer) (reg : Registry) (q : String) (tf : Nat)
    (h : StepHistory) (fuel : Nat) (c : String) (cs : List String)
    (hp : planner q h reg = PlannerDecision.clarify c cs) :
    loop planner tools synth reg q tf (fuel + 1) h =
      (Outcome.clarification (c :: cs), h) ∧
    0 < (c :: cs).length ∧
    (∀ a : FinalAnswer,
      (loop planner tools synth reg q tf (fuel + 1) h).1 ≠ Outcome.answer a) ∧
    (∀ f : TerminalFailure,
      (loop planner tools synth reg q tf (fuel + 1) h).1 ≠ Outcome.failure f) := by
  have h1 : loop planner tools synth reg q tf (fuel + 1) h =
      (Outcome.clarification (c :: cs), h) := by
    simp [loop, hp]
  exact ⟨h1, by simp, by simp [h1], by simp [h1]⟩

/-- Witness for C3: a planner handing back the two candidate rephrasings
observed in the notebook log ends the query at once in the clarification
outcome. -/
theorem C3_clarification_terminal_witness :
    loop wPlanner3 wTools wSynth wReg "q" 1 (0 + 1) [] =
      (Outcome.clarification
        ["What is the market cap of Amazon.com, Inc., Microsoft Corporation, and Alphabet Inc.?",
         "What is the market cap of the companies that own Amazon Web Services (AWS), Microsoft Azure, and Google Cloud Platform (GCP)?"],
       []) ∧
    0 < (["What is the market cap of Amazon.com, Inc., Microsoft Corporation, and Alphabet Inc.?",
          "What is the market cap of the companies that own Amazon Web Services (AWS), Microsoft Azure, and Google Cloud Platform (GCP)?"] : List String).length ∧
    (∀ a : FinalAnswer,
      (loop wPlanner3 wTools wSynth wReg "q" 1 (0 + 1) []).1 ≠ Outcome.answer a) ∧
    (∀ f : TerminalFailure,
      (loop wPlanner3 wTools wSynth wReg "q" 1 (0 + 1) []).1 ≠ Outcome.failure f) :=
  C3_clarification_terminal wPlanner3 wTools wSynth wReg "q" 1 [] 0 _ _ rfl

/-- C4: the number of PLANNING-to-EXECUTING transitions of a run (the
steps handed to the Executor, recorded in the final history) never
exceeds the configured max_attempts, and a run whose history used the
whole budget terminated in the FAILED outcome with the exhausted-budget
reason. -/
theorem C4_attempt_budget (planner : Planner) (tools : ToolSuite)
    (synth : Synthesizer) (reg : Registry) (q : String) (opts : RunOptions) :
    (runFull planner tools synth reg q opts).2.length ≤ opts.max_attempts ∧
    ((runFull planner tools synth reg q opts).2.length = opts.max_attempts →
      ∃ b, (runFull planner tools synth reg q opts).1 =
        Outcome.failure { reason := FailReason.budgetExhausted, bestEffort := b }) := by
  have hb := loop_budget planner tools synth reg q
    opts.tool_timeout opts.max_attempts []
  have hb1 := hb.1
  have hb2 := hb.2
  simp only [List.length_nil, Nat.zero_add] at hb1 hb2
  exact ⟨hb1, fun heq => ⟨bestEffortAnswer synth q
    (runFull planner tools synth reg q opts).2, hb2 heq⟩⟩

/-- Witness for C4: a planner proposing a fresh argument set each round
exhausts a budget of two attempts and the run fails with the
exhausted-budget reason. -/
theorem C4_attempt_budget_witness :
    (runFull wPlanner4 wTools wSynth wReg "q" ⟨2, 1⟩).2.length ≤ 2 ∧
    ∃ b, (runFull wPlanner4 wTools wSynth wReg "q" ⟨2, 1⟩).1 =
      Outcome.failure { reason := FailReason.budgetExhausted, bestEffort := b } :=
  ⟨(C4_attempt_budget wPlanner4 wTools wSynth wReg "q" ⟨2, 1⟩).1,
   (C4_attempt_budget wPlanner4 wTools wSynth wReg "q" ⟨2, 1⟩).2 (by decide)⟩

/-- C5: the Aggregator's final Source list is the concatenation of the
successful steps' Source lists in step order with exact duplicate
(tool_type, tool_name, metadata) tuples removed: it is duplicate-free, a
sublist of that concatenation (preserving first-seen order), and holds
exactly the concatenation's elements. -/
theorem C5_aggregator_dedup (synth : Synthesizer) (q : String) (h : StepHistory) :
    (synthesize synth q h).sources = dedupSources (successSources h) ∧
    (synthesize synth q h).sources.Nodup ∧
    (synthesize synth q h).sources.Sublist (successSources h) ∧
    ∀ s : Source, s ∈ (synthesize synth q h).sources ↔ s ∈ successSources h := by
  refine ⟨rfl, ?_, ?_, ?_⟩
  · exact dedup_foldl_nodup (successSources h) [] List.nodup_nil
  · obtain ⟨r, h1, h2⟩ := dedup_foldl_shape (successSources h) []
    show (dedupSources (successSources h)).Sublist (successSources h)
    rw [dedupSources, h1]
    simpa using h2
  · intro s
    show s ∈ dedupSources (successSources h) ↔ _
    rw [dedupSources, dedup_foldl_mem]
    simp

/-- C6: registering a descriptor under a fresh name succeeds and a get of
that name returns the registered descriptor; registering a duplicate name
fails with DuplicateNameError and leaves the registry contents unchanged;
a get of an absent name fails with UnknownToolError. -/
theorem C6_registry_contract (r : Registry) (d : ToolDescriptor) (n : String) :
    ((∀ e ∈ r, e.name ≠ d.name) →
      Registry.register r d = (r ++ [d], none) ∧
      Registry.get (r ++ [d]) d.name = Except.ok d) ∧
    ((∃ e ∈ r, e.name = d.name) →
      Registry.register r d = (r, some (RegistryError.duplicateName d.name))) ∧
    ((∀ e ∈ r, e.name ≠ n) →
      Registry.get r n = Except.error (RegistryError.unknownTool n)) := by
  refine ⟨?_, ?_, ?_⟩
  · intro hfresh
    constructor
    · unfold Registry.register
      rw [any_name_false r d.name hfresh]
      simp
    · unfold Registry.get
      rw [find?_append_fresh r d hfresh]
  · intro hdup
    unfold Registry.register
    rw [any_name_true r d.name hdup]
    simp
  · intro habs
    unfold Registry.get
    rw [find?_name_none r n habs]

/-- Witness for C6: on concrete registries, registering a fresh name
succeeds and is then found, registering a duplicate fails leaving the
contents as they were, and a get of an absent name errors. -/
theorem C6_registry_contract_witness :
    (Registry.register [dR1] dR2 = ([dR1] ++ [dR2], none) ∧
      Registry.get ([dR1] ++ [dR2]) dR2.name = Except.ok dR2) ∧
    Registry.register [dR1] dR1 =
      ([dR1], some (RegistryError.duplicateName dR1.name)) ∧
    Registry.get [dR1] "gamma" =
      Except.error (RegistryError.unknownTool "gamma") :=
  ⟨(C6_registry_contract [dR1] dR2 "gamma").1 (by decide),
   (C6_registry_contract [dR1] dR1 "gamma").2.1 (by decide),
   (C6_registry_contract [dR1] dR1 "gamma").2.2 (by decide)⟩

/-- C7: a QueryExecution whose final history has zero successful steps
never produces a FinalAnswer; its outcome is a clarification payload or a
TerminalFailure whose best-effort field is empty, synthesis never having
been attempted. -/
theorem C7_zero_success_no_answer (planner : Planner) (tools : ToolSuite)
    (synth : Synthesizer) (reg : Registry) (q : String) (opts : RunOptions)
    (hz : hasSuccess (runFull planner tools synth reg q opts).2 = false) :
    (∀ a : FinalAnswer,
      (runFull planner tools synth reg q opts).1 ≠ Outcome.answer a) ∧
    ((∃ cands, (runFull planner tools synth reg q opts).1 =
        Outcome.clarification cands) ∨
      (∃ f : TerminalFailure,
        (runFull planner tools synth reg q opts).1 = Outcome.failure f ∧
        f.bestEffort = none)) := by
  have hz2 : hasSuccess
      (loop planner tools synth reg q opts.tool_timeout opts.max_attempts []).2
      = false := hz
  have hna : ∀ a : FinalAnswer,
      (runFull planner tools synth reg q opts).1 ≠ Outcome.answer a := by
    intro a ha
    have ht := (loop_answer planner tools synth reg q
      opts.tool_timeout opts.max_attempts [] a ha).1
    simp [ht] at hz2
  refine ⟨hna, ?_⟩
  cases ho : (runFull planner tools synth reg q opts).1 with
  | answer a => exact absurd ho (hna a)
  | clarification cands => exact Or.inl ⟨cands, rfl⟩
  | failure f =>
    refine Or.inr ⟨f, rfl, ?_⟩
    have hbe := loop_bestEffort planner tools synth reg q
      opts.tool_timeout opts.max_attempts [] f ho
    rw [hbe]
    simp [bestEffortAnswer, hz2]

/-- Witness for C7: a planner that finishes at once leaves an empty
history, and the run returns a TerminalFailure with no best-effort
answer. -/
theorem C7_zero_success_no_answer_witness :
    (∀ a : FinalAnswer,
      (runFull wPlanner7 wTools wSynth wReg "q" ⟨1, 1⟩).1 ≠ Outcome.answer a) ∧
    ((∃ cands, (runFull wPlanner7 wTools wSynth wReg "q" ⟨1, 1⟩).1 =
        Outcome.clarification cands) ∨
      (∃ f : TerminalFailure,
        (runFull wPlanner7 wTools wSynth wReg "q" ⟨1, 1⟩).1 = Outcome.failure f ∧
        f.bestEffort = none)) :=
  C7_zero_success_no_answer wPlanner7 wTools wSynth wReg "q" ⟨1, 1⟩ (by decide)

/-- C8: every successful StepResult carries at least one Source entry, a
single Source normalized from the tool descriptor, and a tool producing
no citable metadata gets the null metadata marker, never an absent or
empty Source list. -/
theorem C8_success_step_sources (d : ToolDescriptor) (behave : ToolBehavior)
    (maxAttempts : Nat)
    (hs : (execute d behave maxAttempts).status = StepStatus.success) :
    0 < (execute d behave maxAttempts).sources.length ∧
    (∃ m, (execute d behave maxAttempts).sources = [mkSource d m]) ∧
    (mkSource d none).metadata = [none] := by
  obtain ⟨m, hm⟩ := executeAttempts_success d behave maxAttempts 0 hs
  refine ⟨?_, ⟨m, hm⟩, rfl⟩
  have hm2 : (execute d behave maxAttempts).sources = [mkSource d m] := hm
  rw [hm2]
  simp

/-- Witness for C8: a first-attempt success with null metadata carries
exactly the one Source with the null metadata marker. -/
theorem C8_success_step_sources_witness :
    0 < (execute wDesc wBehave 1).sources.length ∧
    (∃ m, (execute wDesc wBehave 1).sources = [mkSource wDesc m]) ∧
    (mkSource wDesc none).metadata = [none] :=
  C8_success_step_sources wDesc wBehave 1 (by decide)

/-- C9: the tool names in execution logs and emitted Sources derive
deterministically from the configuration: the lowercased Cortex Search
service name with suffix _cortexsearch, and the Cortex Analyst
semantic-model base name with suffix _cortexanalyst, reproducing the
notebook-observed names for the notebook's configurations. -/
theorem C9_snowflake_tool_naming :
    cortexSearchToolName search_config = observed_search_source.tool_name ∧
    cortexAnalystToolName analyst_config = observed_analyst_source.tool_name ∧
    (cortexSearchDescriptor search_config).name =
      "sec_search_service_cortexsearch" ∧
    (cortexAnalystDescriptor analyst_config).name =
      "sp500_semantic_model_cortexanalyst" := by
  refine ⟨?_, ?_, ?_, ?_⟩ <;> decide

/-- C10: a PythonTool configuration holds only a tool description, an
output description and a callable; the registered tool name is the
callable's defined name, and its Sources carry tool type custom_tool with
the null metadata marker, as observed in the notebook. -/
theorem C10_python_tool_naming :
    pythonToolName python_crawler_config = "html_crawl" ∧
    (pythonToolDescriptor python_crawler_config).name =
      observed_python_source.tool_name ∧
    mkSource (pythonToolDescriptor python_crawler_config) none =
      observed_python_source :=
  ⟨rfl, rfl, rfl⟩

end AgentGateway
